import Mathlib

/-!
Verification development for the aiozk session engine.

Shallow embedding of the core of `aiozk` (a ZooKeeper-style asynchronous
client): the session state machine (`src/aiozk/session.py`), the xid
allocator, the bounded operation queue (`src/aiozk/deque.py`,
`src/aiozk/semaphore.py`), the server delay pool
(`src/aiozk/delay_pool.py`), the rewatch partitioning logic, and the wire
record codec (`src/aiozk/record.py`).

Each Python function used by a claim is translated into an executable Lean
definition; machine integers are modelled as `Nat`/`Int` with explicit
masking where the source masks, and fallible code returns `Option`.
-/

namespace Aiozk

/-- Error classes of `src/aiozk/errors.py`, one constructor per registered
class (`_register_error`). -/
inductive ErrorClass
  | systemError
  | runtimeInconsistencyError
  | dataInconsistencyError
  | connectionLossError
  | marshallingError
  | unimplementedError
  | operationTimeoutError
  | badArgumentsError
  | invalidStateError
  | newConfigNoQuorumError
  | reconfigInprogressError
  | noNodeError
  | noAuthError
  | badVersionError
  | noChildrenForEphemeralsError
  | nodeExistsError
  | notEmptyError
  | sessionExpiredError
  | invalidCallbackError
  | invalidACLError
  | authFailedError
  | closingError
  | nothingError
  | sessionMovedError
  | notReadOnlyError
  | ephemeralOnLocalSessionError
  | noWatcherError
  | reconfigDisabledError
  deriving DecidableEq, Repr

/-- `errors.get_error_class`: the `_ERROR_CODE_2_ERROR_CLASS` table built by
the `_register_error` decorators in `src/aiozk/errors.py`; `none` models the
`KeyError` on an unregistered code. -/
def get_error_class : Int → Option ErrorClass
  | -1 => some .systemError
  | -2 => some .runtimeInconsistencyError
  | -3 => some .dataInconsistencyError
  | -4 => some .connectionLossError
  | -5 => some .marshallingError
  | -6 => some .unimplementedError
  | -7 => some .operationTimeoutError
  | -8 => some .badArgumentsError
  | -9 => some .invalidStateError
  | -13 => some .newConfigNoQuorumError
  | -14 => some .reconfigInprogressError
  | -101 => some .noNodeError
  | -102 => some .noAuthError
  | -103 => some .badVersionError
  | -108 => some .noChildrenForEphemeralsError
  | -110 => some .nodeExistsError
  | -111 => some .notEmptyError
  | -112 => some .sessionExpiredError
  | -113 => some .invalidCallbackError
  | -114 => some .invalidACLError
  | -115 => some .authFailedError
  | -116 => some .closingError
  | -117 => some .nothingError
  | -118 => some .sessionMovedError
  | -119 => some .notReadOnlyError
  | -120 => some .ephemeralOnLocalSessionError
  | -121 => some .noWatcherError
  | -123 => some .reconfigDisabledError
  | _ => none

/-- `session.SessionState`. -/
inductive SessionState
  | connecting
  | connected
  | closed
  | authFailed
  deriving DecidableEq, Repr

/-- `session.SessionEventType`. -/
inductive SessionEventType
  | connecting
  | disconnected
  | connected
  | closed
  | sessionExpired
  | authFailed
  deriving DecidableEq, Repr

/-- `session._FINAL_SESSION_STATE_2_ERROR_CLASS` (src/aiozk/session.py lines
599-602): terminal states mapped to their error classes. -/
def final_session_state_error_class : SessionState → Option ErrorClass
  | .closed => some .sessionExpiredError
  | .authFailed => some .authFailedError
  | _ => none

/-- `Session.is_closed`: membership in `_FINAL_SESSION_STATES`. -/
def is_closed_state (s : SessionState) : Bool :=
  (final_session_state_error_class s).isSome

/-- Result of the transition dispatch at the top of `Session._set_state`
(src/aiozk/session.py lines 226-257): `noop` is the CONNECTING→CONNECTING
early return, `invalid` an `assert False`, and `proceed ec` carries the
`error_class` local variable computed for a legal transition. -/
inductive TransitionResult
  | noop
  | invalid
  | proceed (ec : Option ErrorClass)
  deriving DecidableEq, Repr

/-- The `error_class` computation of `Session._set_state` for each pair of
old and new state, following the source's nested if/elif chain. -/
def set_state_error_class : SessionState → SessionState → SessionEventType → TransitionResult
  | .connecting, .connecting, _ => .noop
  | .connecting, .connected, _ => .proceed none
  | .connecting, .closed, ev =>
      .proceed (some (if ev = .sessionExpired then .sessionExpiredError else .connectionLossError))
  | .connecting, .authFailed, _ => .proceed (some .authFailedError)
  | .connected, .connecting, _ => .proceed (some .connectionLossError)
  | .connected, .closed, _ => .proceed (some .connectionLossError)
  | .connected, _, _ => .invalid
  | .closed, .connecting, _ => .proceed none
  | .closed, _, _ => .invalid
  | .authFailed, .connecting, _ => .proceed none
  | .authFailed, _, _ => .invalid

/-- `need_retry = error_class is errors.ConnectionLossError`
(src/aiozk/session.py line 260). -/
def need_retry (ec : ErrorClass) : Bool :=
  ec = .connectionLossError

/-- What `Session._set_state` does to one operation's completion slot. -/
inductive OpOutcome
  | untouched
  | skipped
  | requeued
  | failed (e : ErrorClass)
  deriving DecidableEq, Repr

/-- Fate of one entry of the in-flight map `_pending_operations2` during
`Session._set_state` (src/aiozk/session.py lines 267-277 for the
non-terminal branch, lines 297-306 for the terminal branch).
`cancelled` is `operation.response.cancelled()`. -/
def in_flight_op_outcome (old new : SessionState) (ev : SessionEventType)
    (cancelled autoRetry : Bool) : OpOutcome :=
  match set_state_error_class old new ev with
  | .noop => .untouched
  | .invalid => .untouched
  | .proceed none => .untouched
  | .proceed (some ec) =>
    match final_session_state_error_class new with
    | none =>
        if cancelled then .skipped
        else if need_retry ec && autoRetry then .requeued
        else .failed ec
    | some ec2 =>
        if cancelled then .skipped
        else if need_retry ec && autoRetry then .failed ec2
        else .failed ec

/-- Fate of one operation of the pending queue `_pending_operations1` during
`Session._set_state` (drained and failed only in the terminal branch,
src/aiozk/session.py lines 283-295). -/
def pending_op_outcome (old new : SessionState) (ev : SessionEventType)
    (cancelled : Bool) : OpOutcome :=
  match set_state_error_class old new ev with
  | .proceed (some _) =>
    match final_session_state_error_class new with
    | some ec2 => if cancelled then .skipped else .failed ec2
    | none => .untouched
  | _ => .untouched

/-- Fate of one registered watcher during `Session._set_state`
(src/aiozk/session.py lines 310-319): in the terminal branch every
non-removed watcher's event fails with the terminal error class.
`removed` is `watcher.is_removed()`. -/
def watcher_outcome (old new : SessionState) (ev : SessionEventType)
    (removed : Bool) : OpOutcome :=
  match set_state_error_class old new ev with
  | .proceed (some _) =>
    match final_session_state_error_class new with
    | some ec2 => if removed then .skipped else .failed ec2
    | none => .untouched
  | _ => .untouched

/-- Whether the terminal branch of `Session._set_state` sends the best-effort
CLOSE_SESSION frame (src/aiozk/session.py lines 279-281): it does exactly
when the transport is not closed; the session id is not consulted. -/
def terminal_close_sends_frame (transportLive : Bool) (_sessionId : Int) : Bool :=
  transportLive

/-- Abstract view of the session data touched by
`Session.execute_operation` before any await point. -/
structure SessionData where
  state : SessionState
  pending : List Nat
  inflight : List (Nat × Nat)
  watchers : List (Nat × Nat)
  deriving DecidableEq, Repr

/-- The entry gate of `Session.execute_operation` (src/aiozk/session.py lines
163-184): look up the current state in `_FINAL_SESSION_STATE_2_ERROR_CLASS`;
if in a terminal state raise that error class before building or enqueuing
the operation, otherwise append the operation at the tail of the pending
queue.  Returns the resulting session data together with the raised error
class, if any. -/
def execute_operation_enqueue (sd : SessionData) (op : Nat) :
    SessionData × Option ErrorClass :=
  match final_session_state_error_class sd.state with
  | some e => (sd, some e)
  | none => ({ sd with pending := sd.pending ++ [op] }, none)

/-- `Session._get_xid` (src/aiozk/session.py lines 562-565): return the
current `_next_xid` and store `(xid + 1) & 0x7FFFFFFF`.  `& 0x7FFFFFFF` on a
nonnegative Python int is reduction mod `2^31`. -/
def get_xid (nextXid : Nat) : Nat × Nat :=
  (nextXid, (nextXid + 1) % 2 ^ 31)

/-- Allocator state after `k` calls to `_get_xid` starting from `s`. -/
def xid_state_after (s : Nat) : Nat → Nat
  | 0 => s
  | k + 1 => (get_xid (xid_state_after s k)).2

/-- The xid returned by the `(k+1)`-th call to `_get_xid` when the allocator
holds `s` (the session initializes `_next_xid = 1`,
src/aiozk/session.py line 111). -/
def alloc_xid (s k : Nat) : Nat :=
  (get_xid (xid_state_after s k)).1

/-- The `last_zxid` update performed on every reply header
(src/aiozk/session.py lines 516-517 and 461-462): an assignment guarded by
`zxid > 0`, not a maximum. -/
def update_last_zxid (lastZxid zxid : Int) : Int :=
  if 0 < zxid then zxid else lastZxid

/-- `last_zxid` after a sequence of reply headers. -/
def process_zxids (lastZxid : Int) (zxids : List Int) : Int :=
  zxids.foldl update_last_zxid lastZxid

/-- How `Session._receive_responses` resolves a matched operation. -/
inductive SlotOutcome
  | successNull
  | successResponse
  | failedWith (e : ErrorClass)
  deriving DecidableEq, Repr

/-- Resolution of one matched in-flight operation by
`Session._receive_responses` (src/aiozk/session.py lines 542-560).
`nonErrors` is `operation.non_error_classes`, `hasCallback` whether
`operation.on_completed` is set, `err` is `reply_header.err`.  The result is
the completion-slot outcome and the argument the completion callback was
invoked with (`none` = callback not invoked).  An unregistered error code
(KeyError in `get_error_class`) yields `none`. -/
def resolve_reply (nonErrors : List ErrorClass) (hasCallback : Bool) (err : Int) :
    Option (SlotOutcome × Option (Option ErrorClass)) :=
  if err = 0 then
    some (.successResponse, if hasCallback then some none else none)
  else
    match get_error_class err with
    | none => none
    | some k =>
      if k ∈ nonErrors then
        some (.successNull, if hasCallback then some (some k) else none)
      else
        some (.failedWith k, none)

/-- `delay_pool.DelayPool` (src/aiozk/delay_pool.py): `items` is the
endpoint list, `used_item_count` and `number_of_items` the fields of the
same names.  Timing fields are not modelled. -/
structure DelayPool (α : Type) where
  items : List α
  used_item_count : Nat
  number_of_items : Nat
  deriving DecidableEq, Repr

/-- `DelayPool.reset` (src/aiozk/delay_pool.py lines 22-36).  `shuffle`
stands for one concrete outcome of `random.shuffle` (any permutation).
The source computes `last_item_index = getattr(self, "_next_item_index", 0)
- 1`; the attribute `_next_item_index` is never assigned anywhere in the
repository (`allocate_item` increments `_used_item_count` instead), so
`last_item_index` is always `-1` and the whole list is shuffled; the branch
that moves the last handed-out item to the tail is dead code.
`number_of_items` becomes `ceil(item_reuse_factor * len(items))`. -/
def DelayPool.reset (shuffle : List α → List α) (itemReuseFactor : ℚ)
    (p : DelayPool α) : DelayPool α :=
  { items := shuffle p.items
    used_item_count := 0
    number_of_items := Nat.ceil (itemReuseFactor * p.items.length) }

/-- `DelayPool.allocate_item` (src/aiozk/delay_pool.py lines 38-57), with the
delay sleeping removed: returns `none` once `used_item_count` has reached
`number_of_items`, else the item at index `used_item_count mod len(items)`
and the pool with `used_item_count` incremented. -/
def DelayPool.allocate_item (p : DelayPool α) : Option α × DelayPool α :=
  if p.used_item_count = p.number_of_items then (none, p)
  else (p.items.get? (p.used_item_count % p.items.length),
        { p with used_item_count := p.used_item_count + 1 })

/-- The endpoint handed out by the most recent allocation, if any. -/
def DelayPool.last_allocated (p : DelayPool α) : Option α :=
  if p.used_item_count = 0 then none
  else p.items.get? ((p.used_item_count - 1) % p.items.length)

/-- `session._MAX_NUMBER_OF_PENDING_OPERATIONS = 1 << 16`
(src/aiozk/session.py line 597), the `max_length` of the pending deque. -/
def max_pending_operations : Nat := 2 ^ 16

/-- Joint state of the pending deque's semaphore
(`src/aiozk/deque.py` on top of `src/aiozk/semaphore.py`, constructed as
`Semaphore(0, max_length, 0)`) and of the in-flight map
`Session._pending_operations2`.  The semaphore `value` equals the number of
items in the deque; `min_value` stays 0 throughout the session's usage and
is omitted. -/
structure EngineState where
  value : Nat
  maxValue : Nat
  inflight : Nat
  deriving DecidableEq, Repr

/-- One atomic state change of the session engine on the pending deque and
the in-flight map, as performed by the source:

* `enqueue` — `Deque.insert_tail` / `try_insert_tail` completing
  (`Semaphore.up`: requires `value < max_value`, increments `value`);
* `send` — `Session._send_requests` taking the head with
  `commit_item_removal=False` (`Semaphore.try_down(True)`: decrements both
  `value` and `max_value`) and recording the operation in
  `_pending_operations2`;
* `receive` — `Session._receive_responses` popping a matched xid from
  `_pending_operations2` and calling `commit_item_removals(1)`
  (`Semaphore.increase_max_value(1)`);
* `cancel` — `Session.execute_operation`'s exception path calling
  `Deque.try_remove_item` with the default `commit_item_removal=True`
  (`Semaphore.try_down(False)`: decrements `value` only);
* `disconnect` — the non-terminal branch of `Session._set_state`:
  `commit_item_removals(len(_pending_operations2))`, re-insertion via
  `try_insert_tail` of `k` of the in-flight operations (each insertion
  requires the capacity check, so `value + k ≤ max_value + inflight`), and
  `_pending_operations2.clear()`;
* `terminal` — the terminal branch of `Session._set_state`: the deque is
  drained and closed (`Deque.close` clears the items) and
  `_pending_operations2.clear()` empties the in-flight map. -/
inductive EngineStep : EngineState → EngineState → Prop
  | enqueue (s : EngineState) (h : s.value < s.maxValue) :
      EngineStep s ⟨s.value + 1, s.maxValue, s.inflight⟩
  | send (s : EngineState) (h : 0 < s.value) :
      EngineStep s ⟨s.value - 1, s.maxValue - 1, s.inflight + 1⟩
  | receive (s : EngineState) (h : 0 < s.inflight) :
      EngineStep s ⟨s.value, s.maxValue + 1, s.inflight - 1⟩
  | cancel (s : EngineState) (h : 0 < s.value) :
      EngineStep s ⟨s.value - 1, s.maxValue, s.inflight⟩
  | disconnect (s : EngineState) (k : Nat) (hk : k ≤ s.inflight)
      (hfit : s.value + k ≤ s.maxValue + s.inflight) :
      EngineStep s ⟨s.value + k, s.maxValue + s.inflight, 0⟩
  | terminal (s : EngineState) :
      EngineStep s ⟨0, s.maxValue, 0⟩

/-- The state built by `Session.__init__`: empty deque with capacity
`2^16`, empty in-flight map. -/
def initialEngineState : EngineState := ⟨0, max_pending_operations, 0⟩

/-- States of the session engine reachable from the initial state. -/
inductive ReachableEngineState : EngineState → Prop
  | init : ReachableEngineState initialEngineState
  | step {s s' : EngineState} :
      ReachableEngineState s → EngineStep s s' → ReachableEngineState s'

/-- `session.WatcherType` (DATA, EXIST, CHILD). -/
inductive WatcherType
  | data
  | exist
  | child
  deriving DecidableEq, Repr

/-- One key of the watch registry as visited by `Session._rewatch`
(src/aiozk/session.py lines 411-414): a watcher type, a path (given by its
UTF-8 byte encoding, the source measures `len(path.encode())`), and whether
at least one watcher at that key is not removed (the source skips keys where
`all(watcher.is_removed() ...)`). -/
structure WatchKey where
  wtype : WatcherType
  path : List Nat
  live : Bool
  deriving DecidableEq, Repr

/-- `protocol.SetWatches` frame paired with the request header it is sent
under; path strings are carried as their UTF-8 byte lists. -/
structure SetWatchesFrame where
  relative_zxid : Int
  data_watches : List (List Nat)
  exist_watches : List (List Nat)
  child_watches : List (List Nat)
  deriving DecidableEq, Repr

/-- The path list of a frame for one watcher type. -/
def SetWatchesFrame.watchList (fr : SetWatchesFrame) : WatcherType → List (List Nat)
  | .data => fr.data_watches
  | .exist => fr.exist_watches
  | .child => fr.child_watches

/-- The `paths` triple-of-lists local of `Session._rewatch`. -/
structure PathBuf where
  data : List (List Nat)
  exist : List (List Nat)
  child : List (List Nat)
  deriving DecidableEq, Repr

def PathBuf.empty : PathBuf := ⟨[], [], []⟩

def PathBuf.get (b : PathBuf) : WatcherType → List (List Nat)
  | .data => b.data
  | .exist => b.exist
  | .child => b.child

/-- `paths[watcher_type].append(path)`. -/
def PathBuf.push (b : PathBuf) : WatcherType → List Nat → PathBuf
  | .data, p => { b with data := b.data ++ [p] }
  | .exist, p => { b with exist := b.exist ++ [p] }
  | .child, p => { b with child := b.child ++ [p] }

/-- `record.get_size(protocol.RequestHeader)`: two Ints. -/
def request_header_size : Nat := 4 + 4

/-- `record.get_size(protocol.SetWatches)` with no value: a Long plus three
empty Vectors (4 bytes of length each). -/
def set_watches_base_size : Nat := 8 + (4 + 4 + 4)

/-- `session._SETWATCHES_OVERHEAD_SIZE` (src/aiozk/session.py line 609). -/
def setwatches_overhead_size : Nat := request_header_size + set_watches_base_size

/-- `session._STRING_OVERHEAD_SIZE = get_size(protocol.String)`. -/
def string_overhead_size : Nat := 4

/-- `session._MAX_SETWATCHES_SIZE = 1 << 17` (src/aiozk/session.py
line 608). -/
def max_setwatches_size : Nat := 2 ^ 17

/-- The accumulator of `Session._rewatch`'s loop: the `requests` list, the
running `request_size`, and the `paths` buffers. -/
structure RewatchAcc where
  requests : List SetWatchesFrame
  request_size : Nat
  paths : PathBuf
  deriving DecidableEq, Repr

/-- Building a `protocol.SetWatches` from the current buffers
(src/aiozk/session.py lines 419-424 and 435-440). -/
def mkSetWatches (lastZxid : Int) (b : PathBuf) : SetWatchesFrame :=
  ⟨lastZxid, b.data, b.exist, b.child⟩

/-- The body of `Session._rewatch`'s nested loop for one registry key
(src/aiozk/session.py lines 411-432): skip keys with no live watcher;
compute `path_size`; if adding it would exceed `_MAX_SETWATCHES_SIZE`,
flush the current buffers as a frame and start a fresh one; then append the
path to its type's buffer and add `path_size` to `request_size`. -/
def rewatch_step (lastZxid : Int) (acc : RewatchAcc) (e : WatchKey) : RewatchAcc :=
  if e.live then
    let path_size := string_overhead_size + e.path.length
    let acc' :=
      if max_setwatches_size < acc.request_size + path_size then
        RewatchAcc.mk (acc.requests ++ [mkSetWatches lastZxid acc.paths])
          setwatches_overhead_size PathBuf.empty
      else acc
    RewatchAcc.mk acc'.requests (acc'.request_size + path_size)
      (acc'.paths.push e.wtype e.path)
  else acc

/-- `Session._rewatch`'s frame construction (src/aiozk/session.py lines
406-440): fold over the registry keys in iteration order, then flush the
final partial frame when `request_size > _SETWATCHES_OVERHEAD_SIZE`. -/
def rewatch (lastZxid : Int) (keys : List WatchKey) : List SetWatchesFrame :=
  let acc := keys.foldl (rewatch_step lastZxid)
    (RewatchAcc.mk [] setwatches_overhead_size PathBuf.empty)
  if setwatches_overhead_size < acc.request_size then
    acc.requests ++ [mkSetWatches lastZxid acc.paths]
  else acc.requests

/-- Serialized size of a list of path strings inside a Vector's elements:
each String costs 4 length bytes plus its UTF-8 bytes. -/
def paths_cost (l : List (List Nat)) : Nat :=
  (l.map fun p => string_overhead_size + p.length).sum

/-- Serialized size of a request header plus SetWatches body: the frame
overhead plus the cost of every carried path. -/
def frame_size (fr : SetWatchesFrame) : Nat :=
  setwatches_overhead_size + paths_cost fr.data_watches +
    paths_cost fr.exist_watches + paths_cost fr.child_watches

/-- Total cost of the buffered paths. -/
def buf_cost (b : PathBuf) : Nat :=
  paths_cost b.data + paths_cost b.exist + paths_cost b.child

/-- Paths of the given type carried across a list of frames, in order. -/
def frames_paths (frames : List SetWatchesFrame) (t : WatcherType) : List (List Nat) :=
  (frames.map fun fr => fr.watchList t).flatten

/-- Registry keys of the given type that have a live watcher, in iteration
order (the set that `Session._rewatch` must re-register). -/
def live_paths (keys : List WatchKey) (t : WatcherType) : List (List Nat) :=
  (keys.filter fun e => e.live && e.wtype = t).map fun e => e.path

/-- Big-endian base-256 encoding of `n` on `w` bytes, as produced by
`int.to_bytes(w, "big")` in `src/aiozk/record.py` (values above `256^w`
are cut off; the signed serializers below only call this in range). -/
def enc_be : Nat → Nat → List Nat
  | 0, _ => []
  | w + 1, n => enc_be w (n / 256) ++ [n % 256]

/-- Big-endian base-256 decoding, as computed by
`int.from_bytes(data, "big")`. -/
def dec_be (data : List Nat) : Nat :=
  data.foldl (fun a b => a * 256 + b) 0

/-- `int.to_bytes(w, "big", signed=True)`: fails (OverflowError) outside
the `w`-byte two's-complement range, otherwise encodes `i mod 2^(8w)`. -/
def enc_signed (w : Nat) (i : Int) : Option (List Nat) :=
  if -(2 ^ (8 * w - 1) : Int) ≤ i ∧ i < 2 ^ (8 * w - 1) then
    some (enc_be w (i % (2 ^ (8 * w) : Int)).toNat)
  else none

/-- `int.from_bytes(data, "big", signed=True)` on `w` bytes. -/
def dec_signed (w : Nat) (data : List Nat) : Int :=
  let n : Int := dec_be data
  if n < 2 ^ (8 * w - 1) then n else n - 2 ^ (8 * w)

/-- The wire types of `src/aiozk/record.py`: the five primitives, Vectors,
and records (a record is its fields in declaration order). -/
inductive WireType
  | boolean
  | int
  | long
  | buffer
  | string
  | vector (elem : WireType)
  | record (fields : List WireType)

/-- Wire values.  A Python `str` is represented by its UTF-8 byte list
(`_serialize_string` writes `string.encode()` and `_deserialize_string`
reads it back with `bytes.decode()`, a bijection on valid encodings). -/
inductive WireVal
  | vbool (b : Bool)
  | vint (i : Int)
  | vlong (i : Int)
  | vbuf (bs : List Nat)
  | vstr (bs : List Nat)
  | vvec (elems : List WireVal)
  | vrec (fields : List WireVal)

/-- Typing of wire values: which serializer/deserializer pair of
`record._PRIMITIVE_CLASS_2_SERDES` (or the Vector/record shape) a value
belongs to. -/
inductive HasType : WireVal → WireType → Prop
  | vbool (b : Bool) : HasType (.vbool b) .boolean
  | vint (i : Int) : HasType (.vint i) .int
  | vlong (i : Int) : HasType (.vlong i) .long
  | vbuf (bs : List Nat) : HasType (.vbuf bs) .buffer
  | vstr (bs : List Nat) : HasType (.vstr bs) .string
  | vvec {elems : List WireVal} {t : WireType}
      (h : ∀ e ∈ elems, HasType e t) : HasType (.vvec elems) (.vector t)
  | vrec {fields : List WireVal} {ts : List WireType}
      (h : List.Forall₂ HasType fields ts) : HasType (.vrec fields) (.record ts)

mutual

/-- `record._serialize_value` / `_serialize_record` / `_serialize_vector`
and the primitive serializers of `src/aiozk/record.py`: Boolean is one byte
(1 or 0); Int and Long are 4- and 8-byte big-endian signed; Buffer and
String are an Int length followed by the raw bytes; a Vector is an Int
count followed by its elements; a record is the concatenation of its fields
in declaration order.  `none` models a raised OverflowError (an out-of-range
Int/Long or a length not fitting in a signed 4-byte Int). -/
def serialize_value : WireVal → Option (List Nat)
  | .vbool b => some [if b then 1 else 0]
  | .vint i => enc_signed 4 i
  | .vlong i => enc_signed 8 i
  | .vbuf bs => do
      let lenBytes ← enc_signed 4 bs.length
      pure (lenBytes ++ bs)
  | .vstr bs => do
      let lenBytes ← enc_signed 4 bs.length
      pure (lenBytes ++ bs)
  | .vvec elems => do
      let lenBytes ← enc_signed 4 elems.length
      let body ← serialize_list elems
      pure (lenBytes ++ body)
  | .vrec fields => serialize_list fields

/-- Serialization of a sequence of values, concatenated in order. -/
def serialize_list : List WireVal → Option (List Nat)
  | [] => some []
  | v :: vs => do
      let bs ← serialize_value v
      let rest ← serialize_list vs
      pure (bs ++ rest)

end

/-- Reading a 4-byte signed length prefix and rejecting negatives, as
`_deserialize_buffer` / `_deserialize_string` / `_deserialize_vector` do
with `number_of_bytes < 0` / `number_of_elements < 0`. -/
def read_length (data : List Nat) : Option (Nat × List Nat) :=
  if 4 ≤ data.length then
    let n := dec_signed 4 (data.take 4)
    if n < 0 then none else some (n.toNat, data.drop 4)
  else none

mutual

/-- `record._deserialize_value` / `_deserialize_record` /
`_deserialize_vector` and the primitive deserializers of
`src/aiozk/record.py`, on the byte stream starting at the current offset:
each ValueError / short read is `none`; on success the decoded value and
the unconsumed remainder of the stream are returned. -/
def deserialize_value : WireType → List Nat → Option (WireVal × List Nat)
  | .boolean, data =>
      match data with
      | [] => none
      | b :: rest => some (.vbool (b ≠ 0), rest)
  | .int, data =>
      if 4 ≤ data.length then some (.vint (dec_signed 4 (data.take 4)), data.drop 4)
      else none
  | .long, data =>
      if 8 ≤ data.length then some (.vlong (dec_signed 8 (data.take 8)), data.drop 8)
      else none
  | .buffer, data => do
      let (n, rest) ← read_length data
      if n ≤ rest.length then pure (.vbuf (rest.take n), rest.drop n) else none
  | .string, data => do
      let (n, rest) ← read_length data
      if n ≤ rest.length then pure (.vstr (rest.take n), rest.drop n) else none
  | .vector t, data => do
      let (n, rest) ← read_length data
      let (elems, rest') ← deserialize_many t n rest
      pure (.vvec elems, rest')
  | .record ts, data => do
      let (fields, rest) ← deserialize_fields ts data
      pure (.vrec fields, rest)

/-- The element loop of `_deserialize_vector`: read `n` values of type
`t`. -/
def deserialize_many : WireType → Nat → List Nat → Option (List WireVal × List Nat)
  | _, 0, data => some ([], data)
  | t, n + 1, data => do
      let (v, rest) ← deserialize_value t data
      let (vs, rest') ← deserialize_many t n rest
      pure (v :: vs, rest')

/-- The field loop of `_deserialize_record`: read each declared field in
order. -/
def deserialize_fields : List WireType → List Nat → Option (List WireVal × List Nat)
  | [], data => some ([], data)
  | t :: ts, data => do
      let (v, rest) ← deserialize_value t data
      let (vs, rest') ← deserialize_fields ts rest
      pure (v :: vs, rest')

end

/-- The frame written by `Session._do_close` (src/aiozk/session.py lines
383-388): a `protocol.RequestHeader` whose xid is taken from the normal
allocator `Session._get_xid` and whose type is
`protocol.OpCode.CLOSE_SESSION = -11`, serialized with
`record.serialize_record`. -/
def do_close_frame (nextXid : Nat) : Option (List Nat) :=
  serialize_value (.vrec [.vint nextXid, .vint (-11)])

/-! ## Helper lemmas -/

theorem xid_state_after_formula (s : Nat) (hs : s < 2 ^ 31) (k : Nat) :
    xid_state_after s k = (s + k) % 2 ^ 31 := by
  induction k with
  | zero => simpa [xid_state_after] using (Nat.mod_eq_of_lt hs).symm
  | succ k ih =>
      simp only [xid_state_after, get_xid, ih]
      omega

theorem alloc_xid_formula (s : Nat) (hs : s < 2 ^ 31) (k : Nat) :
    alloc_xid s k = (s + k) % 2 ^ 31 := by
  simp [alloc_xid, get_xid, xid_state_after_formula s hs k]

/-! ## C2 -/

/-- C2 (corrected): the xid allocator starts at 1 and increments by one
masked to 31 bits, so the `(k+1)`-th xid handed out is `(1 + k) mod 2^31`;
within any window of fewer than `2^31` consecutive allocations the xids are
pairwise distinct (hence strictly increasing in wrap order on one
connection).  However 0 is NOT skipped at the wrap: the code has no
skip-zero logic, so after allocating `2^31 - 1` the next xid is 0 (see the
counterexample). -/
theorem C2_xid_allocator (k j : Nat) (hjk : j < k) (hwin : k < j + 2 ^ 31) :
    alloc_xid 1 k = (1 + k) % 2 ^ 31 ∧ alloc_xid 1 j ≠ alloc_xid 1 k := by
  have h1 : (1 : Nat) < 2 ^ 31 := by norm_num
  refine ⟨alloc_xid_formula 1 h1 k, ?_⟩
  rw [alloc_xid_formula 1 h1 j, alloc_xid_formula 1 h1 k]
  intro h
  have hmod : (1 + j) % 2 ^ 31 = (1 + k) % 2 ^ 31 := h
  have hdvd : (2 ^ 31 : Nat) ∣ (1 + k) - (1 + j) :=
    (Nat.modEq_iff_dvd' (by omega)).mp hmod
  have hle : (2 ^ 31 : Nat) ≤ (1 + k) - (1 + j) :=
    Nat.le_of_dvd (by omega) hdvd
  omega

/-- Witness for C2 at `j = 0`, `k = 1`. -/
theorem C2_xid_allocator_witness :
    alloc_xid 1 1 = (1 + 1) % 2 ^ 31 ∧ alloc_xid 1 0 ≠ alloc_xid 1 1 :=
  C2_xid_allocator 1 0 (by norm_num) (by norm_num)

/-- Counterexample to C2 as stated: the `2^31 - 1`-th allocation hands out
`2^31 - 1`, and the allocation right after it hands out 0, not 1 — the
claim's "0 skipped at the wrap, never 0" does not hold of the code. -/
theorem C2_counterexample :
    alloc_xid 1 (2 ^ 31 - 2) = 2 ^ 31 - 1 ∧ alloc_xid 1 (2 ^ 31 - 1) = 0 := by
  have h1 : (1 : Nat) < 2 ^ 31 := by norm_num
  rw [alloc_xid_formula 1 h1, alloc_xid_formula 1 h1]
  constructor
  · have : 1 + (2 ^ 31 - 2) = 2 ^ 31 - 1 := by norm_num
    rw [this]
    exact Nat.mod_eq_of_lt (by norm_num)
  · have : 1 + (2 ^ 31 - 1) = 2 ^ 31 := by norm_num
    rw [this]
    exact Nat.mod_self _

/-! ## C8 -/

/-- C8 (corrected): the engine assigns `last_zxid := zxid` on every reply
with `zxid > 0` — an assignment, not a maximum — so the new value is at
least the previous one exactly when the reply's zxid is; monotonicity is
not enforced by the engine itself. -/
theorem C8_last_zxid_update (lastZxid zxid : Int) (hz : 0 < zxid) :
    update_last_zxid lastZxid zxid = zxid ∧
      (lastZxid ≤ update_last_zxid lastZxid zxid ↔ lastZxid ≤ zxid) := by
  simp [update_last_zxid, hz]

/-- Witness for C8 at `last_zxid = 1`, `zxid = 2`. -/
theorem C8_last_zxid_update_witness :
    update_last_zxid 1 2 = 2 ∧ (1 ≤ update_last_zxid 1 2 ↔ (1 : Int) ≤ 2) :=
  C8_last_zxid_update 1 2 (by norm_num)

/-- Counterexample to C8 as stated: after replies with zxids 5 then 3 (both
positive), `last_zxid` has decreased from 5 to 3. -/
theorem C8_counterexample :
    process_zxids 0 [5] = 5 ∧ (0 : Int) < 3 ∧
      process_zxids 0 [5, 3] < process_zxids 0 [5] := by
  refine ⟨?_, by norm_num, ?_⟩ <;>
    simp [process_zxids, update_last_zxid]

/-! ## C10 -/

/-- C10 (confirmed): calling `execute_operation` while the session state is
terminal raises the state's error class (`SessionExpiredError` for CLOSED,
`AuthFailedError` for AUTH_FAILED) before the operation is built or
enqueued, leaving the session data — pending queue, in-flight map, watch
registry and state — unchanged. -/
theorem C10_execute_operation_terminal_gate (sd : SessionData) (op : Nat)
    (h : is_closed_state sd.state = true) :
    execute_operation_enqueue sd op = (sd, final_session_state_error_class sd.state) ∧
    (sd.state = .closed →
      final_session_state_error_class sd.state = some .sessionExpiredError) ∧
    (sd.state = .authFailed →
      final_session_state_error_class sd.state = some .authFailedError) := by
  cases hs : sd.state <;>
    simp_all [is_closed_state, final_session_state_error_class,
      execute_operation_enqueue]

/-- Witness for C10 in the CLOSED state with a nonempty queue and map. -/
theorem C10_execute_operation_terminal_gate_witness :
    execute_operation_enqueue ⟨.closed, [1], [(1, 2)], [(3, 4)]⟩ 7 =
      (⟨.closed, [1], [(1, 2)], [(3, 4)]⟩,
        final_session_state_error_class SessionState.closed) :=
  (C10_execute_operation_terminal_gate ⟨.closed, [1], [(1, 2)], [(3, 4)]⟩ 7
    (by decide)).1

/-! ## C6 -/

/-- C6 (confirmed): when the receiver matches a reply with `err ≠ 0` to an
in-flight operation, it maps the code to an error class; if that class is in
the operation's non-error set, the completion slot resolves successfully
with a null response and the completion callback (when present) is invoked
with the class; otherwise the slot fails with the class and the callback is
not invoked. -/
theorem C6_non_error_resolution (nonErrors : List ErrorClass) (hasCb : Bool)
    (err : Int) (k : ErrorClass) (hne : err ≠ 0)
    (hk : get_error_class err = some k) :
    (k ∈ nonErrors →
      resolve_reply nonErrors hasCb err =
        some (.successNull, if hasCb then some (some k) else none)) ∧
    (k ∉ nonErrors →
      resolve_reply nonErrors hasCb err = some (.failedWith k, none)) := by
  constructor <;> intro hmem <;> simp [resolve_reply, hne, hk, hmem]

/-- Witness for C6: a NO_NODE reply (`err = -101`) against an operation
declaring `NoNodeError` a non-error (the `exists` call shape), and against
one that does not. -/
theorem C6_non_error_resolution_witness :
    resolve_reply [.noNodeError] true (-101) =
      some (.successNull, some (some .noNodeError)) ∧
    resolve_reply [] true (-101) = some (.failedWith .noNodeError, none) := by
  constructor
  · simpa using
      (C6_non_error_resolution [.noNodeError] true (-101) .noNodeError
        (by norm_num) (by decide)).1 (by decide)
  · simpa using
      (C6_non_error_resolution [] true (-101) .noNodeError
        (by norm_num) (by decide)).2 (by decide)

/-! ## C1 -/

/-- Counterexample to C1 as stated: on an explicit close from CONNECTED
(a transition into the terminal CLOSED state), an in-flight operation with
`auto_retry = False` whose slot is unresolved fails with
`ConnectionLossError`, not with the terminal kind `SessionExpiredError`. -/
theorem C1_counterexample :
    in_flight_op_outcome .connected .closed .closed false false =
      .failed .connectionLossError ∧
    in_flight_op_outcome .connected .closed .closed false false ≠
      .failed .sessionExpiredError := by
  decide

/-- C1 (corrected): on every transition into a terminal state, every
unresolved pending operation and every non-removed watcher fails with the
terminal error kind; an unresolved in-flight operation fails with the
terminal kind when the transition's direct error class is
`ConnectionLossError` and its `auto_retry` flag is set, and with the
transition's direct error class otherwise — and whenever that direct class
is not `ConnectionLossError` it already equals the terminal kind.  In
particular an in-flight operation without `auto_retry` fails an explicit
close with `ConnectionLossError` instead of `SessionExpiredError`. -/
theorem C1_terminal_failure (old new : SessionState) (ev : SessionEventType)
    (ec ec2 : ErrorClass) (autoRetry : Bool)
    (hec : set_state_error_class old new ev = .proceed (some ec))
    (hec2 : final_session_state_error_class new = some ec2) :
    pending_op_outcome old new ev false = .failed ec2 ∧
    watcher_outcome old new ev false = .failed ec2 ∧
    in_flight_op_outcome old new ev false autoRetry =
      .failed (if need_retry ec && autoRetry then ec2 else ec) ∧
    (need_retry ec = false → ec = ec2) := by
  cases old <;> cases new <;>
    simp_all [set_state_error_class, final_session_state_error_class,
      pending_op_outcome, watcher_outcome, in_flight_op_outcome, need_retry] <;>
    split_ifs at hec ⊢ <;> simp_all

/-- Witness for C1: explicit close from CONNECTED with an
`auto_retry = True` in-flight operation; everything fails with
`SessionExpiredError`. -/
theorem C1_terminal_failure_witness :
    pending_op_outcome .connected .closed .closed false =
      .failed .sessionExpiredError ∧
    watcher_outcome .connected .closed .closed false =
      .failed .sessionExpiredError ∧
    in_flight_op_outcome .connected .closed .closed false true =
      .failed .sessionExpiredError := by
  have h := C1_terminal_failure .connected .closed .closed
    .connectionLossError .sessionExpiredError true (by decide) (by decide)
  refine ⟨h.1, h.2.1, ?_⟩
  simpa [need_retry] using h.2.2.1

/-! ## C3 -/

/-- C3 (code bug): evaluation of the source's `reset` at the failing input.
The pool holds two endpoints; one allocation hands out the head; `reset`
then reads the never-assigned attribute `_next_item_index` (getattr default
0), so `last_item_index = -1` and it only shuffles — here the shuffle
outcome is the identity permutation, a possible result of
`random.shuffle` — and the very next `allocate_item` hands out the same
endpoint that was handed out last, which the claim says can never happen. -/
theorem C3_dead_reset_branch :
    (DelayPool.allocate_item ⟨[10, 20], 0, 2⟩).1 = some 10 ∧
    DelayPool.last_allocated (DelayPool.allocate_item ⟨[10, 20], 0, 2⟩).2 =
      some 10 ∧
    (DelayPool.allocate_item
      (DelayPool.reset id 1 (DelayPool.allocate_item ⟨[10, 20], 0, 2⟩).2)).1 =
      some 10 := by
  refine ⟨rfl, rfl, ?_⟩
  have hceil : Nat.ceil ((1 : ℚ) * (([10, 20] : List ℕ).length : ℚ)) = 2 := by
    norm_num
  simp [DelayPool.allocate_item, DelayPool.reset, hceil]

/-! ## C4 -/

theorem engine_state_invariant {s : EngineState} (h : ReachableEngineState s) :
    s.value ≤ s.maxValue ∧ s.maxValue + s.inflight ≤ max_pending_operations := by
  induction h with
  | init => simp [initialEngineState]
  | step hr hstep ih =>
      cases hstep <;> simp_all <;> omega

/-- C4 (confirmed): in every reachable state of the session engine, the
number of operations in the pending deque (the semaphore value) plus the
number of entries of the in-flight map is at most `2^16`: taking an
operation for sending reserves the slot (`try_down(decrease_max_value)`
shrinks the capacity) and the slot is committed back by
`commit_item_removals` exactly when the matching reply is consumed or the
in-flight map is cleared on a state transition. -/
theorem C4_capacity_bound (s : EngineState) (h : ReachableEngineState s) :
    s.value + s.inflight ≤ max_pending_operations := by
  have hinv := engine_state_invariant h
  omega

/-- Witness for C4 at the state reached by one `insert_tail`. -/
theorem C4_capacity_bound_witness :
    EngineState.value ⟨1, max_pending_operations, 0⟩ +
      EngineState.inflight ⟨1, max_pending_operations, 0⟩ ≤
        max_pending_operations := by
  refine C4_capacity_bound _ (ReachableEngineState.step ReachableEngineState.init ?_)
  have h : initialEngineState.value < initialEngineState.maxValue := by
    simp [initialEngineState, max_pending_operations]
  exact EngineStep.enqueue initialEngineState h

/-! ## C5 -/

theorem paths_cost_append (l : List (List Nat)) (p : List Nat) :
    paths_cost (l ++ [p]) = paths_cost l + (string_overhead_size + p.length) := by
  simp [paths_cost]

theorem paths_cost_eq_zero {l : List (List Nat)} (h : paths_cost l = 0) :
    l = [] := by
  cases l with
  | nil => rfl
  | cons p l => simp [paths_cost, string_overhead_size] at h

theorem buf_cost_push (b : PathBuf) (t : WatcherType) (p : List Nat) :
    buf_cost (b.push t p) = buf_cost b + (string_overhead_size + p.length) := by
  cases t <;> simp [PathBuf.push, buf_cost, paths_cost_append] <;> ring

theorem buf_get_push (b : PathBuf) (t t' : WatcherType) (p : List Nat) :
    (b.push t p).get t' =
      b.get t' ++ (if t = t' then [p] else []) := by
  cases t <;> cases t' <;> simp [PathBuf.push, PathBuf.get]

theorem buf_cost_empty : buf_cost PathBuf.empty = 0 := rfl

theorem buf_get_empty (t : WatcherType) : PathBuf.empty.get t = [] := by
  cases t <;> rfl

theorem mk_set_watches_watchList (lz : Int) (b : PathBuf) (t : WatcherType) :
    (mkSetWatches lz b).watchList t = b.get t := by
  cases t <;> rfl

theorem frames_paths_append (rs : List SetWatchesFrame) (fr : SetWatchesFrame)
    (t : WatcherType) :
    frames_paths (rs ++ [fr]) t = frames_paths rs t ++ fr.watchList t := by
  simp [frames_paths]

theorem frame_size_mk (lz : Int) (b : PathBuf) :
    frame_size (mkSetWatches lz b) = setwatches_overhead_size + buf_cost b := by
  simp [frame_size, mkSetWatches, buf_cost]
  ring

theorem live_paths_cons (e : WatchKey) (keys : List WatchKey) (t : WatcherType) :
    live_paths (e :: keys) t =
      (if e.live && e.wtype = t then [e.path] else []) ++ live_paths keys t := by
  simp only [live_paths, List.filter_cons]
  split_ifs with h <;> simp_all

/-- Fold invariant of `Session._rewatch`'s loop: the running `request_size`
always equals the overhead plus the cost of the buffered paths, and for
each watcher type the paths already flushed into frames followed by the
buffered ones are exactly the live paths of the processed prefix. -/
theorem rewatch_fold_partition (lz : Int) (keys : List WatchKey) :
    ∀ acc : RewatchAcc,
      acc.request_size = setwatches_overhead_size + buf_cost acc.paths →
      (keys.foldl (rewatch_step lz) acc).request_size =
        setwatches_overhead_size +
          buf_cost (keys.foldl (rewatch_step lz) acc).paths ∧
      ∀ t, frames_paths (keys.foldl (rewatch_step lz) acc).requests t ++
            (keys.foldl (rewatch_step lz) acc).paths.get t =
          frames_paths acc.requests t ++ acc.paths.get t ++ live_paths keys t := by
  induction keys with
  | nil => intro acc hsz; simp [live_paths, hsz]
  | cons e keys ih =>
      intro acc hsz
      by_cases hlive : e.live
      · set ps := string_overhead_size + e.path.length with hps
        by_cases hover : max_setwatches_size < acc.request_size + ps
        · have hstep : rewatch_step lz acc e =
              RewatchAcc.mk (acc.requests ++ [mkSetWatches lz acc.paths])
                (setwatches_overhead_size + ps)
                (PathBuf.empty.push e.wtype e.path) := by
            simp [rewatch_step, hlive, ← hps, hover]
          have hsz' : (rewatch_step lz acc e).request_size =
              setwatches_overhead_size + buf_cost (rewatch_step lz acc e).paths := by
            rw [hstep]
            simp [buf_cost_push, buf_cost_empty]
          have hmain := ih (rewatch_step lz acc e) hsz'
          refine ⟨by simpa [List.foldl_cons] using hmain.1, ?_⟩
          intro t
          have ht := hmain.2 t
          rw [List.foldl_cons]
          rw [ht, hstep]
          simp only [frames_paths_append, buf_get_push, buf_get_empty,
            mk_set_watches_watchList, live_paths_cons, hlive, Bool.true_and]
          by_cases hty : e.wtype = t <;> simp [hty]
        · have hstep : rewatch_step lz acc e =
              RewatchAcc.mk acc.requests (acc.request_size + ps)
                (acc.paths.push e.wtype e.path) := by
            simp [rewatch_step, hlive, ← hps, hover]
          have hsz' : (rewatch_step lz acc e).request_size =
              setwatches_overhead_size + buf_cost (rewatch_step lz acc e).paths := by
            rw [hstep]
            simp [buf_cost_push, hsz]
            ring
          have hmain := ih (rewatch_step lz acc e) hsz'
          refine ⟨by simpa [List.foldl_cons] using hmain.1, ?_⟩
          intro t
          have ht := hmain.2 t
          rw [List.foldl_cons]
          rw [ht, hstep]
          simp only [buf_get_push, live_paths_cons, hlive, Bool.true_and]
          by_cases hty : e.wtype = t <;> simp [hty]
      · have hstep : rewatch_step lz acc e = acc := by
          simp [rewatch_step, hlive]
        have hmain := ih acc hsz
        refine ⟨by simpa [List.foldl_cons, hstep] using hmain.1, ?_⟩
        intro t
        rw [List.foldl_cons, hstep]
        rw [hmain.2 t]
        simp [live_paths_cons, hlive]

/-- Fold invariant for the size bound: provided every live path fits in a
frame by itself, the running `request_size` and every flushed frame stay
within `_MAX_SETWATCHES_SIZE`; flushed frames all carry
`relative_zxid = lz`. -/
theorem rewatch_fold_size (lz : Int) (keys : List WatchKey)
    (hfit : ∀ e ∈ keys, e.live = true →
      setwatches_overhead_size + (string_overhead_size + e.path.length) ≤
        max_setwatches_size) :
    ∀ acc : RewatchAcc,
      acc.request_size = setwatches_overhead_size + buf_cost acc.paths →
      acc.request_size ≤ max_setwatches_size →
      (∀ fr ∈ acc.requests,
        frame_size fr ≤ max_setwatches_size ∧ fr.relative_zxid = lz) →
      (keys.foldl (rewatch_step lz) acc).request_size ≤ max_setwatches_size ∧
      ∀ fr ∈ (keys.foldl (rewatch_step lz) acc).requests,
        frame_size fr ≤ max_setwatches_size ∧ fr.relative_zxid = lz := by
  induction keys with
  | nil => intro acc _ hb hf; exact ⟨hb, hf⟩
  | cons e keys ih =>
      intro acc hsz hb hf
      have hfit' : ∀ e' ∈ keys, e'.live = true →
          setwatches_overhead_size + (string_overhead_size + e'.path.length) ≤
            max_setwatches_size := fun e' he' => hfit e' (by simp [he'])
      by_cases hlive : e.live
      · set ps := string_overhead_size + e.path.length with hps
        have hefit : setwatches_overhead_size + ps ≤ max_setwatches_size :=
          hfit e (by simp) hlive
        by_cases hover : max_setwatches_size < acc.request_size + ps
        · have hstep : rewatch_step lz acc e =
              RewatchAcc.mk (acc.requests ++ [mkSetWatches lz acc.paths])
                (setwatches_overhead_size + ps)
                (PathBuf.empty.push e.wtype e.path) := by
            simp [rewatch_step, hlive, ← hps, hover]
          rw [List.foldl_cons]
          refine ih hfit' (rewatch_step lz acc e) ?_ ?_ ?_
          · rw [hstep]; simp [buf_cost_push, buf_cost_empty]
          · rw [hstep]; simpa using hefit
          · rw [hstep]
            intro fr hfr
            rcases List.mem_append.mp hfr with hfr | hfr
            · exact hf fr hfr
            · have : fr = mkSetWatches lz acc.paths := by simpa using hfr
              subst this
              refine ⟨?_, rfl⟩
              rw [frame_size_mk, ← hsz]
              exact hb
        · have hstep : rewatch_step lz acc e =
              RewatchAcc.mk acc.requests (acc.request_size + ps)
                (acc.paths.push e.wtype e.path) := by
            simp [rewatch_step, hlive, ← hps, hover]
          rw [List.foldl_cons]
          refine ih hfit' (rewatch_step lz acc e) ?_ ?_ ?_
          · rw [hstep]; simp only [buf_cost_push, hsz]; ring
          · rw [hstep]; simpa using Nat.not_lt.mp hover
          · rw [hstep]; exact hf
      · have hstep : rewatch_step lz acc e = acc := by
          simp [rewatch_step, hlive]
        rw [List.foldl_cons, hstep]
        exact ih hfit' acc hsz hb hf

/-- Fold invariant for the zxid field: every flushed frame carries
`relative_zxid = lz`, with no assumption on the registry. -/
theorem rewatch_fold_zxid (lz : Int) (keys : List WatchKey) :
    ∀ acc : RewatchAcc,
      (∀ fr ∈ acc.requests, fr.relative_zxid = lz) →
      ∀ fr ∈ (keys.foldl (rewatch_step lz) acc).requests, fr.relative_zxid = lz := by
  induction keys with
  | nil => intro acc h; exact h
  | cons e keys ih =>
      intro acc h
      rw [List.foldl_cons]
      refine ih (rewatch_step lz acc e) ?_
      intro fr hfr
      by_cases hlive : e.live
      · by_cases hover : max_setwatches_size <
            acc.request_size + (string_overhead_size + e.path.length)
        · simp only [rewatch_step, hlive, if_true, hover] at hfr
          rcases List.mem_append.mp hfr with hfr | hfr
          · exact h fr hfr
          · have : fr = mkSetWatches lz acc.paths := by simpa using hfr
            subst this
            rfl
        · simp only [rewatch_step, hlive, if_true, hover, if_false] at hfr
          exact h fr hfr
      · simp only [rewatch_step, hlive, if_false] at hfr
        exact h fr hfr

/-- C5 (corrected): after a reconnect, `Session._rewatch` emits SetWatches
frames in which, for each watcher type, the concatenation of the frames'
path lists is exactly the sequence of registry paths with at least one
non-fired watcher — each such (type, path) pair appears exactly once and
none is omitted — and every frame carries `relative_zxid` equal to the
session's `last_zxid`; both hold for every registry.  The `≤ 2^17` bound on
each frame's serialized size (request header plus SetWatches body) holds
under the additional hypothesis that every live path fits in a frame by
itself (`28 + 4 + len(path.encode()) ≤ 2^17`); a longer single path is
emitted in an oversized frame (see the counterexample). -/
theorem C5_rewatch_frames (lz : Int) (keys : List WatchKey) :
    (∀ t, frames_paths (rewatch lz keys) t = live_paths keys t) ∧
    (∀ fr ∈ rewatch lz keys, fr.relative_zxid = lz) ∧
    ((∀ e ∈ keys, e.live = true →
        setwatches_overhead_size + (string_overhead_size + e.path.length) ≤
          max_setwatches_size) →
      ∀ fr ∈ rewatch lz keys, frame_size fr ≤ max_setwatches_size) := by
  have hinit : (RewatchAcc.mk ([] : List SetWatchesFrame)
      setwatches_overhead_size PathBuf.empty).request_size =
      setwatches_overhead_size + buf_cost PathBuf.empty := by
    simp [buf_cost_empty]
  have hpart := rewatch_fold_partition lz keys _ hinit
  have hzxid := rewatch_fold_zxid lz keys
    (RewatchAcc.mk [] setwatches_overhead_size PathBuf.empty)
    (by intro fr hfr; simp at hfr)
  set acc := keys.foldl (rewatch_step lz)
    (RewatchAcc.mk [] setwatches_overhead_size PathBuf.empty) with hacc
  refine ⟨?_, ?_, ?_⟩
  · intro t
    have ht := hpart.2 t
    simp only [frames_paths, List.map_nil, List.flatten_nil, List.nil_append,
      buf_get_empty] at ht
    by_cases hflush : setwatches_overhead_size < acc.request_size
    · rw [rewatch, ← hacc]
      simp only [hflush, if_true]
      rw [frames_paths_append, mk_set_watches_watchList]
      exact ht
    · have hzero : buf_cost acc.paths = 0 := by
        have := hpart.1
        omega
      have hempty : acc.paths.get t = [] := by
        simp only [buf_cost] at hzero
        have hd : paths_cost acc.paths.data = 0 := by omega
        have he : paths_cost acc.paths.exist = 0 := by omega
        have hc : paths_cost acc.paths.child = 0 := by omega
        cases t <;>
          simp [PathBuf.get, paths_cost_eq_zero hd, paths_cost_eq_zero he,
            paths_cost_eq_zero hc]
      rw [rewatch, ← hacc]
      simp only [hflush, if_false]
      rw [← ht, hempty, List.append_nil]
      simp [frames_paths]
  · intro fr hfr
    rw [rewatch, ← hacc] at hfr
    by_cases hflush : setwatches_overhead_size < acc.request_size
    · simp only [hflush, if_true] at hfr
      rcases List.mem_append.mp hfr with hfr | hfr
      · exact hzxid fr hfr
      · have : fr = mkSetWatches lz acc.paths := by simpa using hfr
        subst this
        rfl
    · simp only [hflush, if_false] at hfr
      exact hzxid fr hfr
  · intro hfit fr hfr
    have hsize := rewatch_fold_size lz keys hfit _ hinit
      (by simp [setwatches_overhead_size, request_header_size,
        set_watches_base_size, max_setwatches_size])
      (by intro fr' hfr'; simp at hfr')
    rw [← hacc] at hsize
    rw [rewatch, ← hacc] at hfr
    by_cases hflush : setwatches_overhead_size < acc.request_size
    · simp only [hflush, if_true] at hfr
      rcases List.mem_append.mp hfr with hfr | hfr
      · exact (hsize.2 fr hfr).1
      · have : fr = mkSetWatches lz acc.paths := by simpa using hfr
        subst this
        rw [frame_size_mk, ← hpart.1]
        exact hsize.1
    · simp only [hflush, if_false] at hfr
      exact (hsize.2 fr hfr).1

/-- Witness for C5: one live DATA path, one live EXIST path and one fully
removed CHILD key partition into frames exactly as registered, every frame
carries the given zxid, and — the paths all being short — every frame is
within the size cap. -/
theorem C5_rewatch_frames_witness :
    frames_paths
        (rewatch 7 [⟨.data, [97], true⟩, ⟨.exist, [98, 99], true⟩,
          ⟨.child, [100], false⟩]) .data =
      live_paths [⟨.data, [97], true⟩, ⟨.exist, [98, 99], true⟩,
          ⟨.child, [100], false⟩] .data ∧
    (∀ fr ∈ rewatch 7 [⟨.data, [97], true⟩, ⟨.exist, [98, 99], true⟩,
          ⟨.child, [100], false⟩], fr.relative_zxid = 7) ∧
    ∀ fr ∈ rewatch 7 [⟨.data, [97], true⟩, ⟨.exist, [98, 99], true⟩,
          ⟨.child, [100], false⟩], frame_size fr ≤ max_setwatches_size := by
  have h := C5_rewatch_frames 7
    [⟨.data, [97], true⟩, ⟨.exist, [98, 99], true⟩, ⟨.child, [100], false⟩]
  exact ⟨h.1 .data, h.2.1, h.2.2 (by intro e he _; fin_cases he <;> decide)⟩

theorem rewatch_singleton_oversized (p : List Nat) (hp : p.length = 131041) :
    (rewatch 0 [⟨.data, p, true⟩]).map frame_size = [28, 131073] := by
  have hstep : rewatch_step 0
      (RewatchAcc.mk [] setwatches_overhead_size PathBuf.empty)
      ⟨.data, p, true⟩ =
      RewatchAcc.mk [mkSetWatches 0 PathBuf.empty]
        (setwatches_overhead_size + (string_overhead_size + p.length))
        (PathBuf.empty.push .data p) := by
    simp [rewatch_step, string_overhead_size, setwatches_overhead_size,
      request_header_size, set_watches_base_size, max_setwatches_size, hp]
  rw [rewatch, List.foldl_cons, hstep, List.foldl_nil]
  have hcond : setwatches_overhead_size <
      setwatches_overhead_size + (string_overhead_size + p.length) := by
    simp [string_overhead_size]
  simp only [hcond, if_true, List.map_append, List.map_cons, List.map_nil]
  simp [frame_size, mkSetWatches, PathBuf.push, PathBuf.empty, paths_cost,
    setwatches_overhead_size, request_header_size, set_watches_base_size,
    string_overhead_size, hp]

/-- Counterexample to C5 as stated: a single live DATA watcher whose path
encodes to 131041 bytes does not fit in `2^17` together with the frame
overhead; `Session._rewatch` first flushes an empty frame and then emits
the path in a frame of serialized size 131073 bytes, exceeding the claimed
bound `2^17 = 131072`. -/
theorem C5_counterexample :
    (rewatch 0 [⟨.data, List.replicate 131041 97, true⟩]).map frame_size =
      [28, 131073] ∧
    max_setwatches_size < 131073 := by
  refine ⟨rewatch_singleton_oversized _ (List.length_replicate _ _), ?_⟩
  simp [max_setwatches_size]

/-! ## C9: byte-level lemmas -/

theorem enc_be_length (w n : Nat) : (enc_be w n).length = w := by
  induction w generalizing n with
  | zero => rfl
  | succ w ih => simp [enc_be, ih]

theorem dec_be_append_one (l : List Nat) (b : Nat) :
    dec_be (l ++ [b]) = dec_be l * 256 + b := by
  simp [dec_be, List.foldl_append]

theorem dec_be_enc_be (w n : Nat) : dec_be (enc_be w n) = n % 256 ^ w := by
  induction w generalizing n with
  | zero => simp [enc_be, dec_be, Nat.mod_one]
  | succ w ih =>
      rw [enc_be, dec_be_append_one, ih]
      rw [← Nat.mod_mul_right_div_self]
      have hpow : (256 : Nat) * 256 ^ w = 256 ^ (w + 1) := (pow_succ' 256 w).symm
      rw [hpow]
      have hmod : n % 256 = n % 256 ^ (w + 1) % 256 :=
        (Nat.mod_mod_of_dvd n (dvd_pow_self 256 (Nat.succ_ne_zero w))).symm
      rw [hmod]
      omega

theorem pow_256_eq (w : Nat) : (256 : Nat) ^ w = 2 ^ (8 * w) := by
  rw [pow_mul]
  norm_num

/-- Round-trip of the signed big-endian codec: whenever
`int.to_bytes(w, "big", signed=True)` succeeds, the produced bytes have
length `w` and `int.from_bytes(..., signed=True)` recovers the value. -/
theorem enc_signed_spec (w : Nat) (hw : 0 < w) (i : Int) (bs : List Nat)
    (h : enc_signed w i = some bs) :
    bs.length = w ∧ dec_signed w bs = i := by
  rw [enc_signed] at h
  split at h
  case isFalse => exact absurd h (by simp)
  case isTrue hrange =>
    obtain ⟨hlo, hhi⟩ := hrange
    have hbs : bs = enc_be w (i % (2 ^ (8 * w) : Int)).toNat := by
      simp at h
      exact h.symm
    have hM : (0 : Int) < 2 ^ (8 * w) := by positivity
    have hMsplit : (2 : Int) ^ (8 * w) = 2 ^ (8 * w - 1) * 2 := by
      rw [← pow_succ]
      congr 1
      omega
    have hmnn : (0 : Int) ≤ i % 2 ^ (8 * w) := Int.emod_nonneg i (by positivity)
    have hmlt : i % 2 ^ (8 * w) < 2 ^ (8 * w) := Int.emod_lt_of_pos i hM
    refine ⟨by rw [hbs]; exact enc_be_length _ _, ?_⟩
    have hdec : dec_be bs = (i % 2 ^ (8 * w)).toNat := by
      rw [hbs, dec_be_enc_be]
      refine Nat.mod_eq_of_lt ?_
      rw [pow_256_eq]
      have : ((i % 2 ^ (8 * w)).toNat : Int) < ((2 ^ (8 * w) : Nat) : Int) := by
        rw [Int.toNat_of_nonneg hmnn]
        push_cast
        exact hmlt
      exact_mod_cast this
    have hdec' : ((dec_be bs : Nat) : Int) = i % 2 ^ (8 * w) := by
      rw [hdec, Int.toNat_of_nonneg hmnn]
    rcases le_or_lt 0 i with hi | hi
    · have hieq : i % 2 ^ (8 * w) = i := by
        refine Int.emod_eq_of_lt hi ?_
        calc i < 2 ^ (8 * w - 1) := hhi
          _ ≤ 2 ^ (8 * w) := by
              apply pow_le_pow_right₀ (by norm_num)
              omega
      rw [dec_signed]
      simp only [hdec', hieq]
      rw [if_pos hhi]
    · have hieq : i % 2 ^ (8 * w) = i + 2 ^ (8 * w) := by
        have h0 : (i + 2 ^ (8 * w) * 1) % 2 ^ (8 * w) = i % 2 ^ (8 * w) :=
          Int.add_mul_emod_self_left i (2 ^ (8 * w)) 1
        have h1 : (i + 2 ^ (8 * w)) % 2 ^ (8 * w) = i % 2 ^ (8 * w) := by
          rw [mul_one] at h0
          exact h0
        rw [← h1]
        refine Int.emod_eq_of_lt ?_ ?_
        · have : -(2 ^ (8 * w - 1) : Int) ≥ -(2 ^ (8 * w)) := by
            simp only [ge_iff_le, neg_le_neg_iff]
            apply pow_le_pow_right₀ (by norm_num)
            omega
          omega
        · omega
      rw [dec_signed]
      simp only [hdec', hieq]
      rw [if_neg]
      · omega
      · push_neg
        have : (2 : Int) ^ (8 * w - 1) ≤ i + 2 ^ (8 * w) := by
          rw [hMsplit]
          omega
        omega

/-- Decoding a length prefix produced by serializing a natural length. -/
theorem read_length_enc (n : Nat) (bs tail : List Nat)
    (h : enc_signed 4 (n : Int) = some bs) :
    read_length (bs ++ tail) = some (n, tail) := by
  obtain ⟨hlen, hdec⟩ := enc_signed_spec 4 (by norm_num) _ _ h
  rw [read_length]
  rw [List.take_left' hlen, List.drop_left' hlen]
  rw [if_pos (by simp [hlen])]
  simp only [hdec]
  rw [if_neg (by omega)]
  simp

/-- Round-trip for vector element sequences, given the round-trip property
for each element. -/
theorem roundtrip_many (t : WireType) (es : List WireVal)
    (hrt : ∀ e ∈ es, ∀ bs' rest', HasType e t → serialize_value e = some bs' →
      deserialize_value t (bs' ++ rest') = some (e, rest'))
    (hty : ∀ e ∈ es, HasType e t) :
    ∀ bs rest, serialize_list es = some bs →
      deserialize_many t es.length (bs ++ rest) = some (es, rest) := by
  induction es with
  | nil =>
      intro bs rest hser
      have hbs : bs = [] := by
        simp [serialize_list] at hser
        exact hser
      subst hbs
      simp [deserialize_many]
  | cons v vs ih =>
      intro bs rest hser
      rw [serialize_list] at hser
      cases hv : serialize_value v with
      | none => rw [hv] at hser; simp at hser
      | some b1 =>
          cases hvs : serialize_list vs with
          | none => rw [hv, hvs] at hser; simp at hser
          | some b2 =>
              rw [hv, hvs] at hser
              simp at hser
              subst hser
              have h1 := hrt v (by simp) b1 (b2 ++ rest) (hty v (by simp)) hv
              have h2 := ih
                (fun e he => hrt e (by simp [he]))
                (fun e he => hty e (by simp [he])) b2 rest hvs
              rw [List.length_cons, List.append_assoc]
              rw [deserialize_many]
              rw [h1]
              simp only [Option.bind_eq_bind, Option.some_bind]
              rw [h2]
              rfl

/-- Round-trip for record fields, given the round-trip property for each
field. -/
theorem roundtrip_fields (fs : List WireVal) (ts : List WireType)
    (hrt : ∀ e ∈ fs, ∀ t' bs' rest', HasType e t' → serialize_value e = some bs' →
      deserialize_value t' (bs' ++ rest') = some (e, rest'))
    (hty : List.Forall₂ HasType fs ts) :
    ∀ bs rest, serialize_list fs = some bs →
      deserialize_fields ts (bs ++ rest) = some (fs, rest) := by
  induction hty with
  | nil =>
      intro bs rest hser
      have hbs : bs = [] := by
        simp [serialize_list] at hser
        exact hser
      subst hbs
      simp [deserialize_fields]
  | @cons v t' vs ts' hvt htail ih =>
      intro bs rest hser
      rw [serialize_list] at hser
      cases hv : serialize_value v with
      | none => rw [hv] at hser; simp at hser
      | some b1 =>
          cases hvs : serialize_list vs with
          | none => rw [hv, hvs] at hser; simp at hser
          | some b2 =>
              rw [hv, hvs] at hser
              simp at hser
              subst hser
              have h1 := hrt v (by simp) t' b1 (b2 ++ rest) hvt hv
              have h2 := ih (fun e he => hrt e (by simp [he])) b2 rest hvs
              rw [List.append_assoc]
              rw [deserialize_fields]
              rw [h1]
              simp only [Option.bind_eq_bind, Option.some_bind]
              rw [h2]
              rfl

theorem roundtrip_val (k : Nat) :
    ∀ v : WireVal, sizeOf v ≤ k → ∀ (t : WireType) (bs rest : List Nat),
      HasType v t → serialize_value v = some bs →
      deserialize_value t (bs ++ rest) = some (v, rest) := by
  induction k with
  | zero =>
      intro v hv
      exfalso
      cases v <;> simp at hv
  | succ k ih =>
      intro v hv t bs rest hty hser
      cases hty with
      | vbool b =>
          rw [serialize_value] at hser
          simp at hser
          subst hser
          cases b <;> simp [deserialize_value]
      | vint i =>
          have hi : enc_signed 4 i = some bs := by
            rw [serialize_value] at hser
            exact hser
          obtain ⟨hlen, hdec⟩ := enc_signed_spec 4 (by norm_num) i bs hi
          rw [deserialize_value]
          rw [if_pos (by simp [hlen])]
          rw [List.take_left' hlen, List.drop_left' hlen, hdec]
      | vlong i =>
          have hi : enc_signed 8 i = some bs := by
            rw [serialize_value] at hser
            exact hser
          obtain ⟨hlen, hdec⟩ := enc_signed_spec 8 (by norm_num) i bs hi
          rw [deserialize_value]
          rw [if_pos (by simp [hlen])]
          rw [List.take_left' hlen, List.drop_left' hlen, hdec]
      | vbuf bs0 =>
          rw [serialize_value] at hser
          cases hl : enc_signed 4 (bs0.length : Int) with
          | none => rw [hl] at hser; simp at hser
          | some lb =>
              rw [hl] at hser
              simp at hser
              subst hser
              rw [deserialize_value, List.append_assoc]
              rw [read_length_enc bs0.length lb (bs0 ++ rest) hl]
              simp [List.take_left, List.drop_left]
      | vstr bs0 =>
          rw [serialize_value] at hser
          cases hl : enc_signed 4 (bs0.length : Int) with
          | none => rw [hl] at hser; simp at hser
          | some lb =>
              rw [hl] at hser
              simp at hser
              subst hser
              rw [deserialize_value, List.append_assoc]
              rw [read_length_enc bs0.length lb (bs0 ++ rest) hl]
              simp [List.take_left, List.drop_left]
      | @vvec elems t' helems =>
          rw [serialize_value] at hser
          cases hl : enc_signed 4 (elems.length : Int) with
          | none => rw [hl] at hser; simp at hser
          | some lb =>
              cases hb : serialize_list elems with
              | none => rw [hl, hb] at hser; simp at hser
              | some body =>
                  rw [hl, hb] at hser
                  simp at hser
                  subst hser
                  have hsz : sizeOf elems ≤ k := by
                    simp at hv
                    omega
                  have hmany := roundtrip_many t' elems
                    (fun e he bs' rest' hty' hser' =>
                      ih e (by
                        have := List.sizeOf_lt_of_mem he
                        omega) t' bs' rest' hty' hser')
                    helems body rest hb
                  rw [deserialize_value, List.append_assoc]
                  rw [read_length_enc elems.length lb (body ++ rest) hl]
                  simp only [Option.bind_eq_bind, Option.some_bind]
                  rw [hmany]
                  rfl
      | @vrec fields ts hfields =>
          have hsz : sizeOf fields ≤ k := by
            simp at hv
            omega
          have hflds := roundtrip_fields fields ts
            (fun e he t' bs' rest' hty' hser' =>
              ih e (by
                have := List.sizeOf_lt_of_mem he
                omega) t' bs' rest' hty' hser')
            hfields bs rest (by rw [serialize_value] at hser; exact hser)
          rw [deserialize_value]
          rw [hflds]
          rfl

/-- Serialize-then-deserialize identity over the wire codec, at every
type. -/
theorem deserialize_serialize (v : WireVal) (t : WireType) (bs rest : List Nat)
    (hty : HasType v t) (hser : serialize_value v = some bs) :
    deserialize_value t (bs ++ rest) = some (v, rest) :=
  roundtrip_val (sizeOf v) v le_rfl t bs rest hty hser

/-- C9 (confirmed): for every value of the wire primitives (Boolean, Int,
Long, Buffer, String) and every record and Vector built from them in
declaration order, whenever serialization succeeds (it fails only on an
out-of-range Int/Long or an over-long length, modelling Python's
OverflowError), deserializing the produced bytes yields the original value
and consumes exactly the bytes serialization produced: whatever follows
them is returned untouched. -/
theorem C9_wire_roundtrip (v : WireVal) (t : WireType) (bs rest : List Nat)
    (hty : HasType v t) (hser : serialize_value v = some bs) :
    deserialize_value t (bs ++ rest) = some (v, rest) :=
  deserialize_serialize v t bs rest hty hser

/-- Witness for C9: a record exercising every primitive plus a Vector
round-trips through its concrete serialization, leaving the trailing byte
unconsumed. -/
theorem C9_wire_roundtrip_witness :
    deserialize_value
        (.record [.boolean, .int, .long, .buffer, .string, .vector .int])
        ([1,
          255, 255, 255, 251,
          0, 0, 0, 0, 0, 0, 1, 44,
          0, 0, 0, 2, 7, 8,
          0, 0, 0, 2, 104, 105,
          0, 0, 0, 2, 0, 0, 0, 1, 0, 0, 0, 2] ++ [9]) =
      some (.vrec [.vbool true, .vint (-5), .vlong 300, .vbuf [7, 8],
        .vstr [104, 105], .vvec [.vint 1, .vint 2]], [9]) := by
  refine C9_wire_roundtrip
    (.vrec [.vbool true, .vint (-5), .vlong 300, .vbuf [7, 8],
      .vstr [104, 105], .vvec [.vint 1, .vint 2]])
    (.record [.boolean, .int, .long, .buffer, .string, .vector .int])
    _ [9] ?_ (by decide)
  refine HasType.vrec ?_
  refine List.Forall₂.cons (HasType.vbool true) ?_
  refine List.Forall₂.cons (HasType.vint (-5)) ?_
  refine List.Forall₂.cons (HasType.vlong 300) ?_
  refine List.Forall₂.cons (HasType.vbuf [7, 8]) ?_
  refine List.Forall₂.cons (HasType.vstr [104, 105]) ?_
  refine List.Forall₂.cons (HasType.vvec ?_) List.Forall₂.nil
  intro e he
  fin_cases he <;> exact HasType.vint _

/-! ## C7 -/

/-- Counterexample to C7 as stated: with no session id ever negotiated
(`id = 0`) and a live transport, the terminal branch of `_set_state` still
sends the CLOSE_SESSION frame, and the frame's request header carries
xid 1 (the next value of the ordinary allocator), not the reserved xid −11;
−11 is the frame's op type. -/
theorem C7_counterexample :
    terminal_close_sends_frame true 0 = true ∧
    do_close_frame 1 = some [0, 0, 0, 1, 255, 255, 255, 245] ∧
    dec_signed 4 [0, 0, 0, 1] = 1 ∧ (1 : Int) ≠ -11 := by
  decide

/-- C7 (corrected): when the session enters a terminal state while its
transport is live, `Session._set_state` sends a best-effort CLOSE_SESSION
frame before closing the transport — regardless of whether a session id was
ever negotiated — and the frame's request header carries the next xid from
the ordinary positive allocator together with op type
`CLOSE_SESSION = -11`; −11 is the header's type field, not its xid. -/
theorem C7_close_session_frame (live : Bool) (sid : Int) (nxid : Nat)
    (h : (nxid : Int) < 2 ^ 31) :
    terminal_close_sends_frame live sid = live ∧
    ∃ bs, do_close_frame nxid = some bs ∧
      deserialize_value (.record [.int, .int]) bs =
        some (.vrec [.vint nxid, .vint (-11)], []) := by
  refine ⟨rfl, ?_⟩
  have hcond : -(2 ^ (8 * 4 - 1) : Int) ≤ (nxid : Int) ∧
      (nxid : Int) < 2 ^ (8 * 4 - 1) := by
    norm_num
    constructor
    · have h0 : (0 : Int) ≤ (nxid : Int) := Int.natCast_nonneg nxid
      omega
    · exact_mod_cast h
  have hb1 : enc_signed 4 (nxid : Int) =
      some (enc_be 4 (((nxid : Int) % 2 ^ (8 * 4)).toNat)) := by
    rw [enc_signed, if_pos hcond]
  have hb2 : enc_signed 4 (-11 : Int) = some [255, 255, 255, 245] := by
    decide
  have hser : serialize_value (.vrec [.vint (nxid : Int), .vint (-11)]) =
      some (enc_be 4 (((nxid : Int) % 2 ^ (8 * 4)).toNat) ++
        ([255, 255, 255, 245] ++ [])) := by
    simp [serialize_value, serialize_list, hb1, hb2]
  have hty : HasType (.vrec [.vint (nxid : Int), .vint (-11)])
      (.record [.int, .int]) :=
    HasType.vrec (List.Forall₂.cons (HasType.vint _)
      (List.Forall₂.cons (HasType.vint _) List.Forall₂.nil))
  refine ⟨enc_be 4 (((nxid : Int) % 2 ^ (8 * 4)).toNat) ++
    ([255, 255, 255, 245] ++ []), ?_, ?_⟩
  · rw [do_close_frame]
    exact hser
  · have hrt := deserialize_serialize
      (.vrec [.vint (nxid : Int), .vint (-11)]) (.record [.int, .int])
      _ [] hty hser
    simpa using hrt

/-- Witness for C7 at the initial allocator state. -/
theorem C7_close_session_frame_witness :
    terminal_close_sends_frame true 5 = true ∧
    ∃ bs, do_close_frame 1 = some bs ∧
      deserialize_value (.record [.int, .int]) bs =
        some (.vrec [.vint 1, .vint (-11)], []) :=
  C7_close_session_frame true 5 1 (by norm_num)

end Aiozk
